import Mathlib

/-!
# The hyperrectangular cell list of open-Qmin

A shallow embedding of `src/utilities/hyperrectangularCellList.cpp`.

Modelling conventions.

* `scalar` values are rationals and `floor` of a scalar is exact.  The division of
  a position by a cell size in `positionToCellIndex` is a parameter `sdiv`, the
  quotient as the scalar format rounds it; the quotient of a box length by a cell
  count in `setGridSize` is the exact one, and is only read where the count is
  not zero.
* `DIMENSION` is the length of the box-dimension vector; a `dVec` is a list of
  scalars and an `iVec` a list of integers, one entry per axis.
* `int` and `unsigned int` are 32 bits wide.  The conversions the source writes
  out are modelled with their 32-bit result: `(unsigned int)` of a scalar reduces
  modulo `2^32`, `(int)` of a scalar outside the `int` range gives the smallest
  `int` (C++ leaves both open; this is what the x86-64 conversions yield), and
  `(int)` of an `unsigned int` reinterprets the 32 bits.
* The members `totalCells` and `Nmax` are taken to be `int`, like the `int` locals
  and loop counters the source assigns them to and compares them with; the header
  that declares them is not among the sources.  A computation on them that leaves
  the `int` range, and a loop whose `int` counter would pass `INT_MAX`, ends the
  call with `Outcome.overflow`: what the program does from there on is not
  described.
* A `GPUArray` is the list of its host-side elements.
* A `void` member function maps the object state to an `Outcome`.
-/

namespace OpenQmin

/-- The largest `int`. -/
def INT_MAX : Nat := 2147483647

/-- The number of values of an `unsigned int`, `2^32`. -/
def UINT_RANGE : Nat := 4294967296

/-- `(unsigned int) x` for a scalar `x` with the integral value `z`: the value modulo `2^32`. -/
def scalarToUnsigned (z : Int) : Nat := Int.toNat (z % (UINT_RANGE : Int))

/-- `(int) x` for a scalar `x` with the integral value `z`: `z` when it is an `int`, the
smallest `int` otherwise. -/
def scalarToInt (z : Int) : Int :=
  if -2147483648 ≤ z ∧ z ≤ 2147483647 then z else -2147483648

/-- `(int) u` for an `unsigned int` `u`: the same 32 bits read as an `int`. -/
def unsignedToInt (u : Nat) : Int :=
  if u ≤ INT_MAX then (u : Int) else (u : Int) - (UINT_RANGE : Int)

/-- The row-major style indexer over `DIMENSION` axes, holding the per-axis sizes. -/
structure IndexDD where
  sizes : List Nat
  deriving DecidableEq, Repr

/-- Modelled from the spec: `IndexDD::operator()` is declared in a header that is
not among the sources.  The spec calls it the dimension-generic bijection between
an integer coordinate and a linear id; it is the mixed-radix linearisation in
which axis 0 runs fastest. -/
def IndexDD.index : List Nat → List Int → Int
  | n :: ns, c :: cs => c + (n : Int) * IndexDD.index ns cs
  | _, _ => 0

/-- Modelled from the spec: `IndexDD::inverseIndex` is declared in a header that is
not among the sources; it is the inverse of the mixed-radix linearisation. -/
def IndexDD.inverseIndex : List Nat → Int → List Int
  | [], _ => []
  | n :: ns, i => i % (n : Int) :: IndexDD.inverseIndex ns (i / (n : Int))

/-- The (slot, cell) indexer `Index2D(w, h)`. -/
structure Index2D where
  width : Nat
  height : Nat
  deriving DecidableEq, Repr

/-- Modelled from the spec: `Index2D::getNumElements` is declared in a header that
is not among the sources.  The spec gives the membership table the capacity
`totalCells × Nmax`, the product of the two extents of the indexer. -/
def Index2D.getNumElements (ix : Index2D) : Nat := ix.width * ix.height

/-- The member variables of `hyperrectangularCellList`. -/
structure hyperrectangularCellList where
  useGPU : Bool
  Nmax : Nat
  Box : List ℚ
  gridCellsPerSide : List Nat
  gridCellSizes : List ℚ
  totalCells : Nat
  elementsPerCell : List Nat
  particleIndices : List Int
  assist : List Int
  cellIndexer : IndexDD
  cellListIndexer : Index2D
  deriving DecidableEq

/-- The signal raised by a code path that is not written. -/
inductive Signal where
  | unsupportedOperation (message : String)
  deriving DecidableEq, Repr

/-- How a call of a `void` member function ends: it returns, it raises a signal in some
state, or a 32-bit integer computation leaves its range. -/
inductive Outcome where
  | returned (s : hyperrectangularCellList)
  | raised (sig : Signal) (s : hyperrectangularCellList)
  | overflow
  deriving DecidableEq

/-- The object state when the call ended, where the model describes one. -/
def Outcome.state : Outcome → Option hyperrectangularCellList
  | .returned s => some s
  | .raised _ s => some s
  | .overflow => none

/-- Sequencing of two calls: a raised signal or an overflow skips the rest. -/
def Outcome.andThen (o : Outcome) (k : hyperrectangularCellList → Outcome) : Outcome :=
  match o with
  | .returned s => k s
  | .raised sig s => .raised sig s
  | .overflow => .overflow

/-- Modelled from the spec: the macro `UNWRITTENCODE` is defined in a header that
is not among the sources.  The spec requires a backend that is not implemented
to fail with an explicit unsupported-operation signal; the macro raises that
signal, with its message, in the state it is reached in. -/
def UNWRITTENCODE (message : String) (s : hyperrectangularCellList) : Outcome :=
  .raised (.unsupportedOperation message) s

/-- Modelled from the spec: `GPUArray::resize` is declared in a header that is not
among the sources.  The spec has the occupancy and membership arrays resized to
a new element count; the first elements are kept and new ones are zero. -/
def GPUArray.resize {α : Type} [Zero α] (n : Nat) (xs : List α) : List α :=
  xs.take n ++ List.replicate (n - xs.length) 0

/-- The passes `data[i] = 0` for `i = 0, …, n - 1`. -/
def zeroEntries {α : Type} [Zero α] (n : Nat) (data : List α) : List α :=
  (List.range n).foldl (fun d i => d.set i 0) data

/-- The loop `for (int i = 0; i < n; ++i) data[i] = 0;`.  The counter is an `int`: for
`n` above `INT_MAX` its increment leaves the `int` range and there is no result. -/
def zeroLoop {α : Type} [Zero α] (n : Nat) (data : List α) : Option (List α) :=
  if n ≤ INT_MAX then some (zeroEntries n data) else none

/-- `setBox`: copy the box dimensions of `_box` into the own box. -/
def setBox (_box : List ℚ) (s : hyperrectangularCellList) : Outcome :=
  let bDims := _box
  .returned { s with Box := bDims }

/-- `resetCellSizesCPU`: zero the occupancy and the membership table on the host,
rebuild the (slot, cell) indexer and reset the assist pair. -/
def resetCellSizesCPU (s : hyperrectangularCellList) : Outcome :=
  let elementsPerCell :=
    if s.elementsPerCell.length ≠ s.totalCells then GPUArray.resize s.totalCells s.elementsPerCell
    else s.elementsPerCell
  match zeroLoop s.totalCells elementsPerCell with
  | none => .overflow
  | some elementsPerCell =>
    let cellListIndexer : Index2D := ⟨s.Nmax, s.totalCells⟩
    let particleIndices :=
      if s.particleIndices.length ≠ cellListIndexer.getNumElements then
        GPUArray.resize cellListIndexer.getNumElements s.particleIndices
      else s.particleIndices
    match zeroLoop cellListIndexer.getNumElements particleIndices with
    | none => .overflow
    | some particleIndices =>
      let assist := if s.assist.length ≠ 2 then GPUArray.resize 2 s.assist else s.assist
      let assist := assist.set 0 (s.Nmax : Int)
      let assist := assist.set 1 0
      .returned { s with
        elementsPerCell := elementsPerCell
        cellListIndexer := cellListIndexer
        particleIndices := particleIndices
        assist := assist }

/-- The variables the loop of `setGridSize` writes. -/
structure GridLoop where
  gridCellsPerSide : List Nat
  totalCells : Nat
  gridCellSizes : List ℚ
  deriving DecidableEq

/-- One pass of the loop of `setGridSize`, for the axis with box length `L`; `none` once
`totalCells` has left the `int` range.
`dVecOfScalar` is the conversion of one scalar to a `dVec` (the type is declared
in a header that is not among the sources), which the assignment
`gridCellSizes = bDims.x[dd]/gridCellsPerSide.x[dd]` goes through. -/
def setGridSizeStep (dVecOfScalar : ℚ → List ℚ) (st : Option GridLoop) (L : ℚ) :
    Option GridLoop :=
  match st with
  | none => none
  | some st =>
    let c := scalarToUnsigned ⌊L⌋
    let c := if c % 2 = 1 then (c + 1) % UINT_RANGE else c
    if st.totalCells * c ≤ INT_MAX then
      some { gridCellsPerSide := st.gridCellsPerSide ++ [c]
             totalCells := st.totalCells * c
             gridCellSizes := dVecOfScalar (L / (c : ℚ)) }
    else none

/-- `setGridSize(a)`. -/
def setGridSize (dVecOfScalar : ℚ → List ℚ) (_a : ℚ) (s : hyperrectangularCellList) : Outcome :=
  let bDims := s.Box
  match bDims.foldl (setGridSizeStep dVecOfScalar)
      (some { gridCellsPerSide := [], totalCells := 1, gridCellSizes := s.gridCellSizes }) with
  | none => .overflow
  | some st =>
    let elementsPerCell := GPUArray.resize st.totalCells s.elementsPerCell
    let cellIndexer : IndexDD := ⟨st.gridCellsPerSide⟩
    if 2 * st.totalCells > INT_MAX then .overflow
    else
      let Nmax := if 2 * st.totalCells > s.Nmax then 2 * st.totalCells else s.Nmax
      resetCellSizesCPU { s with
        gridCellsPerSide := st.gridCellsPerSide
        totalCells := st.totalCells
        gridCellSizes := st.gridCellSizes
        elementsPerCell := elementsPerCell
        cellIndexer := cellIndexer
        Nmax := Nmax }

/-- A scalar on every one of `D` axes. -/
def dVecBroadcast (D : Nat) (v : ℚ) : List ℚ := List.replicate D v

/-- The exact quotient of two scalars. -/
def exactDiv (p g : ℚ) : ℚ := p / g

/-- The state of an object before its constructor has run. -/
def blank : hyperrectangularCellList :=
  { useGPU := false, Nmax := 0, Box := [], gridCellsPerSide := [], gridCellSizes := []
    totalCells := 0, elementsPerCell := [], particleIndices := [], assist := []
    cellIndexer := ⟨[]⟩, cellListIndexer := ⟨0, 0⟩ }

/-- The constructor `hyperrectangularCellList(a, _box)`, run on the raw object `s`. -/
def construct (dVecOfScalar : ℚ → List ℚ) (a : ℚ) (_box : List ℚ)
    (s : hyperrectangularCellList) : Outcome :=
  let s := { s with useGPU := false, Nmax := 0, Box := [] }
  (setBox _box s).andThen (setGridSize dVecOfScalar a)

/-- The loop of `positionToCellIndex` over the axes: the cell coordinate on each axis.
`sdiv p g` is the quotient `p / g` as the scalar format rounds it. -/
def cellIndexVecLoop (sdiv : ℚ → ℚ → ℚ) : List Nat → List ℚ → List ℚ → List Int
  | n :: ns, p :: ps, g :: gs =>
      max 0 (min (unsignedToInt n - 1) (scalarToInt ⌊sdiv p g⌋)) ::
        cellIndexVecLoop sdiv ns ps gs
  | _, _, _ => []

/-- `positionToCellIndex(pos)`: the returned cell index, and the object state after the call. -/
def positionToCellIndex (sdiv : ℚ → ℚ → ℚ) (s : hyperrectangularCellList) (pos : List ℚ) :
    Int × hyperrectangularCellList :=
  let cellIndexVec := cellIndexVecLoop sdiv s.gridCellsPerSide pos s.gridCellSizes
  (IndexDD.index s.cellIndexer.sizes cellIndexVec, s)

set_option linter.unusedVariables false in
/-- `getCellNeighbors(cellIndex, width, cellNeighbors)`: the content of `cellNeighbors`
after the call.  The vector is cleared and capacity is reserved; the loop that would fill it
is commented out in the source. -/
def getCellNeighbors (s : hyperrectangularCellList) (cellIndex width : Int)
    (cellNeighbors : List Int) : List Int :=
  let w := min width (unsignedToInt (s.gridCellsPerSide.headD 0))
  let cellIndexVec := IndexDD.inverseIndex s.cellIndexer.sizes cellIndex
  let cellNeighbors : List Int := []
  cellNeighbors

/-- `getCellShellNeighbors(cellIndex, width, cellNeighbors)`: the whole body is commented out
in the source, so `cellNeighbors` is left as it was. -/
def getCellShellNeighbors (_s : hyperrectangularCellList) (_cellIndex _width : Int)
    (cellNeighbors : List Int) : List Int :=
  cellNeighbors

/-- `computeCPU(points)`: the whole body is commented out in the source. -/
def computeCPU (_points : List (List ℚ)) (s : hyperrectangularCellList) : Outcome :=
  .returned s

/-- `resetCellSizes()`, the device-side reset. -/
def resetCellSizes (s : hyperrectangularCellList) : Outcome :=
  UNWRITTENCODE "resetCellSizes on GPU" s

set_option linter.unusedVariables false in
/-- `computeGPU(points)`. -/
def computeGPU (_points : List (List ℚ)) (s : hyperrectangularCellList) : Outcome :=
  let recompute := true
  UNWRITTENCODE "hyperrectangularCellList" s

/-- The grid size the specification asks for on one axis: `floor(L / a)`, raised to the next
even integer when odd. -/
def specCellsPerSide (L a : ℚ) : Nat :=
  let c := Int.toNat ⌊L / a⌋
  if c % 2 = 1 then c + 1 else c

/-- The specification's `clamp(x, lo, hi)`. -/
def clamp (x lo hi : Int) : Int :=
  if x < lo then lo else if hi < x then hi else x

/-- The specification's cell coordinate of `pos` on axis `d`. -/
def specCoord (sdiv : ℚ → ℚ → ℚ) (s : hyperrectangularCellList) (pos : List ℚ) (d : Nat) : Int :=
  clamp ⌊sdiv (pos.getD d 0) (s.gridCellSizes.getD d 0)⌋ 0
    ((s.gridCellsPerSide.getD d 0 : Int) - 1)

/-- The specification's coordinate vector of `pos`. -/
def specCoords (sdiv : ℚ → ℚ → ℚ) (s : hyperrectangularCellList) (pos : List ℚ) : List Int :=
  (List.range s.gridCellsPerSide.length).map (specCoord sdiv s pos)

/-! ### Closed forms and sample states -/

/-- The cell count the loop of `setGridSize` stores for an axis of box length `L`. -/
def gridCellsOf (L : ℚ) : Nat :=
  if scalarToUnsigned ⌊L⌋ % 2 = 1 then (scalarToUnsigned ⌊L⌋ + 1) % UINT_RANGE
  else scalarToUnsigned ⌊L⌋

/-- The value the loop of `setGridSize` leaves in `gridCellSizes`: each pass overwrites the
whole vector, so the last axis decides; with no axis the old value stays. -/
def finalCellSizes (dVecOfScalar : ℚ → List ℚ) (old : List ℚ) (bDims : List ℚ) : List ℚ :=
  match bDims.getLast? with
  | none => old
  | some L => dVecOfScalar (L / (gridCellsOf L : ℚ))

/-- The state `setGridSize` returns for the box of `s` when no `int` leaves its range. -/
def gridInstalled (dVecOfScalar : ℚ → List ℚ) (s : hyperrectangularCellList) :
    hyperrectangularCellList :=
  { s with
    gridCellsPerSide := s.Box.map gridCellsOf
    totalCells := (s.Box.map gridCellsOf).prod
    gridCellSizes := finalCellSizes dVecOfScalar s.gridCellSizes s.Box
    cellIndexer := ⟨s.Box.map gridCellsOf⟩
    Nmax := max s.Nmax (2 * (s.Box.map gridCellsOf).prod)
    elementsPerCell := List.replicate (s.Box.map gridCellsOf).prod 0
    cellListIndexer :=
      ⟨max s.Nmax (2 * (s.Box.map gridCellsOf).prod), (s.Box.map gridCellsOf).prod⟩
    particleIndices := List.replicate
      (max s.Nmax (2 * (s.Box.map gridCellsOf).prod) * (s.Box.map gridCellsOf).prod) 0
    assist := [((max s.Nmax (2 * (s.Box.map gridCellsOf).prod) : Nat) : Int), 0] }

/-- The grid the constructor builds over the box `[4, 4]`. -/
def grid44 : hyperrectangularCellList :=
  { useGPU := false, Nmax := 32, Box := [4, 4], gridCellsPerSide := [4, 4]
    gridCellSizes := [1, 1], totalCells := 16, elementsPerCell := List.replicate 16 0
    particleIndices := List.replicate 512 0, assist := [32, 0]
    cellIndexer := ⟨[4, 4]⟩, cellListIndexer := ⟨32, 16⟩ }

/-- The state in which the constructor on the box `[182, 182]` calls `resetCellSizesCPU`. -/
def grid182 : hyperrectangularCellList :=
  { useGPU := false, Nmax := 66248, Box := [182, 182], gridCellsPerSide := [182, 182]
    gridCellSizes := [1, 1], totalCells := 33124, elementsPerCell := List.replicate 33124 0
    particleIndices := [], assist := []
    cellIndexer := ⟨[182, 182]⟩, cellListIndexer := ⟨0, 0⟩ }

/-! ## Properties -/

/-! ### Arrays -/

theorem zeroEntries_succ {α : Type} [Zero α] (n : Nat) (data : List α) :
    zeroEntries (n + 1) data = (zeroEntries n data).set n 0 := by
  simp [zeroEntries, List.range_succ, List.foldl_append]

theorem length_zeroEntries {α : Type} [Zero α] (n : Nat) (data : List α) :
    (zeroEntries n data).length = data.length := by
  induction n with
  | zero => simp [zeroEntries]
  | succ k ih => rw [zeroEntries_succ, List.length_set, ih]

theorem getElem?_zeroEntries {α : Type} [Zero α] (n : Nat) (data : List α) (i : Nat) :
    (zeroEntries n data)[i]? = if i < n ∧ i < data.length then some 0 else data[i]? := by
  induction n with
  | zero => simp [zeroEntries]
  | succ k ih =>
    rw [zeroEntries_succ, List.getElem?_set, ih, length_zeroEntries]
    by_cases hik : k = i
    · subst hik
      by_cases hl : k < data.length
      · simp [hl]
      · simp [hl]
        omega
    · have : i < k + 1 ↔ i < k := by omega
      simp [hik, this]

theorem zeroEntries_full {α : Type} [Zero α] (n : Nat) (data : List α) (h : data.length = n) :
    zeroEntries n data = List.replicate n 0 := by
  apply List.ext_getElem?
  intro i
  rw [getElem?_zeroEntries, h]
  by_cases hi : i < n
  · simp [hi, List.getElem?_replicate]
  · have : data[i]? = none := by
      apply List.getElem?_eq_none
      omega
    simp [hi, this, List.getElem?_replicate]

theorem length_resize {α : Type} [Zero α] (n : Nat) (xs : List α) :
    (GPUArray.resize n xs).length = n := by
  simp [GPUArray.resize]
  omega

theorem zeroLoop_resized {α : Type} [Zero α] (n : Nat) (xs : List α) :
    zeroLoop n (if xs.length ≠ n then GPUArray.resize n xs else xs) =
      if n ≤ INT_MAX then some (List.replicate n 0) else none := by
  unfold zeroLoop
  split
  · congr 1
    apply zeroEntries_full
    by_cases h : xs.length = n
    · simp [h]
    · simp [h, length_resize]
  · rfl

theorem assist_reset (N : Int) (xs : List Int) :
    ((if xs.length ≠ 2 then GPUArray.resize 2 xs else xs).set 0 N).set 1 0 = [N, 0] := by
  have hl : (if xs.length ≠ 2 then GPUArray.resize 2 xs else xs).length = 2 := by
    by_cases h : xs.length = 2
    · simp [h]
    · simp [h, length_resize]
  generalize (if xs.length ≠ 2 then GPUArray.resize 2 xs else xs) = ys at hl
  match ys, hl with
  | [_, _], _ => rfl

/-! ### `resetCellSizesCPU` -/

theorem resetCellSizesCPU_eq (s : hyperrectangularCellList) :
    resetCellSizesCPU s =
      if s.totalCells ≤ INT_MAX ∧ s.Nmax * s.totalCells ≤ INT_MAX then
        .returned { s with
          elementsPerCell := List.replicate s.totalCells 0
          cellListIndexer := ⟨s.Nmax, s.totalCells⟩
          particleIndices := List.replicate (s.Nmax * s.totalCells) 0
          assist := [(s.Nmax : Int), 0] }
      else .overflow := by
  simp only [resetCellSizesCPU, Index2D.getNumElements, zeroLoop_resized, assist_reset]
  by_cases h1 : s.totalCells ≤ INT_MAX
  · by_cases h2 : s.Nmax * s.totalCells ≤ INT_MAX
    · simp [h1, h2]
    · simp [h1, h2]
  · simp [h1]

/-- C10, as stated, fails: in the state in which the constructor on the box `[182, 182]`
calls `resetCellSizesCPU` (33124 cells, `Nmax = 66248`) the membership table would have
2194398752 entries, more than the `int` counter of the zeroing loop can count; the call does
not return with that table zeroed, and neither does the constructor. -/
theorem resetCellSizesCPU_table_overflow :
    grid182.totalCells * grid182.Nmax = 2194398752 ∧
      INT_MAX < grid182.totalCells * grid182.Nmax ∧
      resetCellSizesCPU grid182 = .overflow ∧
      (∀ t, resetCellSizesCPU grid182 ≠ .returned t) ∧
      construct (dVecBroadcast 2) 1 [182, 182] blank = .overflow := by
  refine ⟨by decide, by decide, by decide!, ?_, by decide!⟩
  intro t h
  have h2 : resetCellSizesCPU grid182 = .overflow := by decide!
  rw [h2] at h
  cases h

/-- C10, amended: in every state whose `Nmax`, `totalCells` and table size
`totalCells * Nmax` are at most `INT_MAX`, `resetCellSizesCPU` returns, the occupancy array is
`totalCells` zeros, the membership table is `totalCells * Nmax` zeros, the assist pair is
`[Nmax, 0]`, and `Nmax`, `totalCells`, `gridCellsPerSide` and `gridCellSizes` are as before. -/
theorem resetCellSizesCPU_zeroes (s : hyperrectangularCellList) (_hNmax : s.Nmax ≤ INT_MAX)
    (hcells : s.totalCells ≤ INT_MAX) (htable : s.totalCells * s.Nmax ≤ INT_MAX) :
    ∃ t, resetCellSizesCPU s = .returned t ∧
      t.elementsPerCell.length = s.totalCells ∧ (∀ x ∈ t.elementsPerCell, x = 0) ∧
      t.particleIndices.length = s.totalCells * s.Nmax ∧ (∀ x ∈ t.particleIndices, x = 0) ∧
      t.assist = [(s.Nmax : Int), 0] ∧
      t.Nmax = s.Nmax ∧ t.totalCells = s.totalCells ∧
      t.gridCellsPerSide = s.gridCellsPerSide ∧ t.gridCellSizes = s.gridCellSizes := by
  have htable2 : s.Nmax * s.totalCells ≤ INT_MAX := by rwa [Nat.mul_comm]
  have h := resetCellSizesCPU_eq s
  rw [if_pos ⟨hcells, htable2⟩] at h
  refine ⟨_, h, ?_, ?_, ?_, ?_, rfl, rfl, rfl, rfl, rfl⟩
  · simp
  · intro x hx
    exact List.eq_of_mem_replicate hx
  · simp [Nat.mul_comm]
  · intro x hx
    exact List.eq_of_mem_replicate hx

theorem resetCellSizesCPU_zeroes_witness :
    ∃ t, resetCellSizesCPU { grid44 with elementsPerCell := [3, 1], particleIndices := [7] }
        = .returned t ∧
      t.elementsPerCell.length = 16 ∧ (∀ x ∈ t.elementsPerCell, x = 0) ∧
      t.particleIndices.length = 16 * 32 ∧ (∀ x ∈ t.particleIndices, x = 0) ∧
      t.assist = [((32 : Nat) : Int), 0] ∧
      t.Nmax = 32 ∧ t.totalCells = 16 ∧
      t.gridCellsPerSide = [4, 4] ∧ t.gridCellSizes = [1, 1] :=
  resetCellSizesCPU_zeroes { grid44 with elementsPerCell := [3, 1], particleIndices := [7] }
    (by decide) (by decide) (by decide)

/-! ### `setGridSize` -/

theorem setGridSizeStep_some (conv : ℚ → List ℚ) (st : GridLoop) (L : ℚ)
    (h : st.totalCells * gridCellsOf L ≤ INT_MAX) :
    setGridSizeStep conv (some st) L =
      some { gridCellsPerSide := st.gridCellsPerSide ++ [gridCellsOf L]
             totalCells := st.totalCells * gridCellsOf L
             gridCellSizes := conv (L / (gridCellsOf L : ℚ)) } := by
  unfold gridCellsOf at h
  simp only [setGridSizeStep, gridCellsOf, if_pos h]

theorem setGridSize_loop (conv : ℚ → List ℚ) (bDims : List ℚ) (st : GridLoop)
    (hrun : ∀ k, k ≤ bDims.length →
      st.totalCells * ((bDims.map gridCellsOf).take k).prod ≤ INT_MAX) :
    bDims.foldl (setGridSizeStep conv) (some st) =
      some { gridCellsPerSide := st.gridCellsPerSide ++ bDims.map gridCellsOf
             totalCells := st.totalCells * (bDims.map gridCellsOf).prod
             gridCellSizes := finalCellSizes conv st.gridCellSizes bDims } := by
  induction bDims generalizing st with
  | nil => simp [finalCellSizes]
  | cons L rest ih =>
    have h1 : st.totalCells * gridCellsOf L ≤ INT_MAX := by
      have := hrun 1 (by simp)
      simpa using this
    rw [List.foldl_cons, setGridSizeStep_some conv st L h1, ih]
    · cases rest with
      | nil => simp [finalCellSizes]
      | cons L2 rest2 =>
        obtain ⟨x, hx⟩ : ∃ x, (L2 :: rest2).getLast? = some x :=
          ⟨_, List.getLast?_eq_getLast _ (by simp)⟩
        simp [finalCellSizes, List.getLast?_cons_cons, Nat.mul_assoc, hx]
    · intro k hk
      have := hrun (k + 1) (by simpa using hk)
      simpa [Nat.mul_assoc] using this

/-- In range, `setGridSize` returns the state `gridInstalled`. -/
theorem setGridSize_eq (conv : ℚ → List ℚ) (a : ℚ) (s : hyperrectangularCellList)
    (hrun : ∀ k, k ≤ s.Box.length → ((s.Box.map gridCellsOf).take k).prod ≤ INT_MAX)
    (hdouble : 2 * (s.Box.map gridCellsOf).prod ≤ INT_MAX)
    (htable : max s.Nmax (2 * (s.Box.map gridCellsOf).prod) * (s.Box.map gridCellsOf).prod
      ≤ INT_MAX) :
    setGridSize conv a s = .returned (gridInstalled conv s) := by
  have hmax : ∀ n m : Nat, (if 2 * m > n then 2 * m else n) = max n (2 * m) := by
    intro n m
    by_cases h : 2 * m > n
    · simp [h, Nat.max_eq_right (Nat.le_of_lt h)]
    · simp [h, Nat.max_eq_left (Nat.le_of_not_gt h)]
  have hloop := setGridSize_loop conv s.Box
    { gridCellsPerSide := [], totalCells := 1, gridCellSizes := s.gridCellSizes }
    (by simpa using hrun)
  have hP : (s.Box.map gridCellsOf).prod ≤ INT_MAX := by
    have := hrun s.Box.length (Nat.le_refl _)
    rwa [List.take_of_length_le (by simp)] at this
  simp only [setGridSize, hloop, List.nil_append, Nat.one_mul, hmax, resetCellSizesCPU_eq]
  rw [if_neg (Nat.not_lt.mpr hdouble), if_pos ⟨hP, htable⟩]
  rfl

theorem setGridSizeStep_none (conv : ℚ → List ℚ) (st : GridLoop) (L : ℚ)
    (h : ¬ st.totalCells * gridCellsOf L ≤ INT_MAX) :
    setGridSizeStep conv (some st) L = none := by
  unfold gridCellsOf at h
  simp only [setGridSizeStep, if_neg h]

theorem setGridSize_loop_none (conv : ℚ → List ℚ) (bDims : List ℚ) :
    bDims.foldl (setGridSizeStep conv) none = none := by
  induction bDims with
  | nil => rfl
  | cons L rest ih => simpa [setGridSizeStep] using ih

theorem setGridSize_loop_some (conv : ℚ → List ℚ) (bDims : List ℚ) (st st' : GridLoop)
    (h : bDims.foldl (setGridSizeStep conv) (some st) = some st') :
    st' = { gridCellsPerSide := st.gridCellsPerSide ++ bDims.map gridCellsOf
            totalCells := st.totalCells * (bDims.map gridCellsOf).prod
            gridCellSizes := finalCellSizes conv st.gridCellSizes bDims } := by
  induction bDims generalizing st with
  | nil =>
    simp only [List.foldl_nil, Option.some.injEq] at h
    subst h
    simp [finalCellSizes]
  | cons L rest ih =>
    rw [List.foldl_cons] at h
    by_cases hfit : st.totalCells * gridCellsOf L ≤ INT_MAX
    · rw [setGridSizeStep_some conv st L hfit] at h
      rw [ih _ h]
      cases rest with
      | nil => simp [finalCellSizes]
      | cons L2 rest2 =>
        obtain ⟨x, hx⟩ : ∃ x, (L2 :: rest2).getLast? = some x :=
          ⟨_, List.getLast?_eq_getLast _ (by simp)⟩
        simp [finalCellSizes, List.getLast?_cons_cons, Nat.mul_assoc, hx]
    · rw [setGridSizeStep_none conv st L hfit, setGridSize_loop_none] at h
      cases h

/-- Whenever `setGridSize` returns, the state it returns is `gridInstalled`. -/
theorem setGridSize_returned_eq (conv : ℚ → List ℚ) (a : ℚ) (s t : hyperrectangularCellList)
    (h : setGridSize conv a s = .returned t) : t = gridInstalled conv s := by
  have hmax : ∀ n m : Nat, (if 2 * m > n then 2 * m else n) = max n (2 * m) := by
    intro n m
    by_cases h : 2 * m > n
    · simp [h, Nat.max_eq_right (Nat.le_of_lt h)]
    · simp [h, Nat.max_eq_left (Nat.le_of_not_gt h)]
  unfold setGridSize at h
  simp only [hmax, resetCellSizesCPU_eq] at h
  cases hfold : s.Box.foldl (setGridSizeStep conv)
      (some { gridCellsPerSide := [], totalCells := 1, gridCellSizes := s.gridCellSizes }) with
  | none =>
    rw [hfold] at h
    cases h
  | some st =>
    rw [hfold] at h
    have hst := setGridSize_loop_some conv s.Box _ st hfold
    simp only [List.nil_append, Nat.one_mul] at hst
    subst hst
    simp only at h
    split_ifs at h
    cases h
    rfl

theorem construct_eq (conv : ℚ → List ℚ) (a : ℚ) (box : List ℚ) (s : hyperrectangularCellList) :
    construct conv a box s =
      setGridSize conv a { s with useGPU := false, Nmax := 0, Box := box } := by
  simp [construct, setBox, Outcome.andThen]

theorem scalarToUnsigned_eq (z : Int) (h0 : 0 ≤ z) (h1 : z < 4294967296) :
    scalarToUnsigned z = Int.toNat z := by
  unfold scalarToUnsigned UINT_RANGE
  rw [Int.emod_eq_of_lt h0 (by exact_mod_cast h1)]

theorem gridCellsOf_even (L : ℚ) : gridCellsOf L % 2 = 0 := by
  unfold gridCellsOf UINT_RANGE
  split <;> omega

theorem gridCellsOf_pos (L : ℚ) (h : 1 ≤ L) (hL : L < 2147483648) : 0 < gridCellsOf L := by
  have h1 : (1 : Int) ≤ ⌊L⌋ := Int.le_floor.mpr (by exact_mod_cast h)
  have h2 : ⌊L⌋ < 2147483648 := Int.floor_lt.mpr (by exact_mod_cast hL)
  have h3 : scalarToUnsigned ⌊L⌋ = Int.toNat ⌊L⌋ := scalarToUnsigned_eq _ (by omega) (by omega)
  unfold gridCellsOf UINT_RANGE
  rw [h3]
  split <;> omega

theorem take_prod_le_prod (cells : List Nat) (hpos : ∀ c ∈ cells, 1 ≤ c) (k : Nat) :
    (cells.take k).prod ≤ cells.prod := by
  have hsplit : cells.prod = (cells.take k).prod * (cells.drop k).prod := by
    rw [← List.prod_append, List.take_append_drop]
  have hdrop : 0 < (cells.drop k).prod := by
    apply Nat.pos_of_ne_zero
    apply List.prod_ne_zero
    intro h0
    have := hpos 0 (List.mem_of_mem_drop h0)
    omega
  rw [hsplit]
  exact Nat.le_mul_of_pos_right _ hdrop

/-- C1: on the box `[10, 10]` with target cell size `2`, `setGridSize` installs `[10, 10]`
cells per side (100 cells in total), where `floor(L / a)` raised to the next even integer
is `[6, 6]`: the target cell size does not enter the computation. -/
theorem setGridSize_ignores_target :
    (∃ t, setGridSize (dVecBroadcast 2) 2 { blank with Box := [10, 10] } = .returned t ∧
        t.gridCellsPerSide = [10, 10] ∧ t.totalCells = 100) ∧
      [10, 10].map (fun L => specCellsPerSide L 2) = [6, 6] := by
  refine ⟨⟨_, setGridSize_eq _ _ _ (by decide) (by decide) (by decide), by decide, by decide⟩,
    by decide!⟩

/-- The outcome of `setGridSize` is the same for every target cell size. -/
theorem setGridSize_target_irrelevant (conv : ℚ → List ℚ) (a b : ℚ)
    (s : hyperrectangularCellList) : setGridSize conv a s = setGridSize conv b s := rfl

/-- C5: on the box `[21/2, 20]` the constructor installs `[10, 20]` cells per side and the
cell sizes `[1, 1]`, where box length over cell count on axis 0 is `21/20`: every pass of the
loop overwrites the whole cell-size vector, so only the last axis counts. -/
theorem setGridSize_cellSize_last_axis_only :
    (∃ t, construct (dVecBroadcast 2) 1 [21/2, 20] blank = .returned t ∧
        t.gridCellsPerSide = [10, 20] ∧ t.gridCellSizes = [1, 1]) ∧
      ((21/2 : ℚ) / ((10 : Nat) : ℚ) = 21/20 ∧ (21/20 : ℚ) ≠ 1) := by
  refine ⟨⟨_, (construct_eq _ _ _ _).trans
    (setGridSize_eq _ _ _ (by decide!) (by decide!) (by decide!)), by decide!, by decide!⟩,
    by decide!⟩

/-- Whatever the conversion of a scalar to a `dVec` is, the stored cell sizes depend on the
last axis of the box alone: two boxes that differ on axis 0 get the same cell sizes whenever
the constructor returns on both. -/
theorem setGridSize_cellSizes_any_conversion (conv : ℚ → List ℚ) (a : ℚ) (L0 L0' L1 : ℚ)
    (s t t' : hyperrectangularCellList)
    (h : construct conv a [L0, L1] s = .returned t)
    (h' : construct conv a [L0', L1] s = .returned t') :
    t.gridCellSizes = t'.gridCellSizes := by
  rw [construct_eq] at h h'
  rw [setGridSize_returned_eq conv a _ t h, setGridSize_returned_eq conv a _ t' h']
  simp [gridInstalled, finalCellSizes]

/-- C8, as stated, fails: the box `[1/2, 10]` has positive lengths, and `setGridSize` installs
`[0, 10]` cells per side, so the count on axis 0 is not positive (and `totalCells` is 0). -/
theorem setGridSize_zero_cells :
    (∀ L ∈ [(1/2 : ℚ), 10], 0 < L) ∧
      ∃ t, setGridSize (dVecBroadcast 2) 1 { blank with Box := [1/2, 10] } = .returned t ∧
        t.gridCellsPerSide = [0, 10] ∧ t.totalCells = 0 := by
  refine ⟨by decide!, _, setGridSize_eq _ _ _ (by decide!) (by decide!) (by decide!),
    by decide!, by decide!⟩

/-- C8, amended: for a positive target cell size and every box whose lengths are all at least
1, at least the target cell size and below `2^31`, and for which the membership table
`max(Nmax, 2 * totalCells) * totalCells` of the resulting grid is at most `INT_MAX`,
`setGridSize` returns with one cell count per axis, each a positive even integer, and
`totalCells` is their product. -/
theorem setGridSize_even_positive (conv : ℚ → List ℚ) (a : ℚ) (s : hyperrectangularCellList)
    (_ha : 0 < a) (hbox : ∀ L ∈ s.Box, 1 ≤ L ∧ a ≤ L ∧ L < 2147483648)
    (htable : max s.Nmax (2 * (s.Box.map gridCellsOf).prod) * (s.Box.map gridCellsOf).prod
      ≤ INT_MAX) :
    ∃ t, setGridSize conv a s = .returned t ∧
      t.gridCellsPerSide.length = s.Box.length ∧
      (∀ n ∈ t.gridCellsPerSide, 0 < n ∧ n % 2 = 0) ∧
      t.totalCells = t.gridCellsPerSide.prod := by
  have hpos : ∀ c ∈ s.Box.map gridCellsOf, 1 ≤ c := by
    intro c hc
    obtain ⟨L, hL, rfl⟩ := List.mem_map.mp hc
    exact gridCellsOf_pos L (hbox L hL).1 (hbox L hL).2.2
  have hP : 0 < (s.Box.map gridCellsOf).prod := by
    apply Nat.pos_of_ne_zero
    apply List.prod_ne_zero
    intro h0
    have := hpos 0 h0
    omega
  have hdouble : 2 * (s.Box.map gridCellsOf).prod ≤ INT_MAX :=
    Nat.le_trans (Nat.le_trans (Nat.le_max_right s.Nmax _) (Nat.le_mul_of_pos_right _ hP)) htable
  have hrun : ∀ k, k ≤ s.Box.length → ((s.Box.map gridCellsOf).take k).prod ≤ INT_MAX := by
    intro k _
    have := take_prod_le_prod _ hpos k
    omega
  refine ⟨_, setGridSize_eq conv a s hrun hdouble htable, by simp [gridInstalled], ?_, rfl⟩
  intro n hn
  obtain ⟨L, hL, rfl⟩ := List.mem_map.mp hn
  exact ⟨gridCellsOf_pos L (hbox L hL).1 (hbox L hL).2.2, gridCellsOf_even L⟩

theorem setGridSize_even_positive_witness :
    ∃ t, setGridSize (dVecBroadcast 2) 1 { blank with Box := [3, 7] } = .returned t ∧
      t.gridCellsPerSide.length = [(3 : ℚ), 7].length ∧
      (∀ n ∈ t.gridCellsPerSide, 0 < n ∧ n % 2 = 0) ∧
      t.totalCells = t.gridCellsPerSide.prod :=
  setGridSize_even_positive (dVecBroadcast 2) 1 { blank with Box := [3, 7] } (by decide)
    (by decide!) (by decide)

/-! ### The capacity `Nmax` -/

/-- C2: after the constructor on the box `[10, 10]` and `computeCPU` on five points that lie
in one cell of that box, the call has returned and the occupancies sum to 0, not to 5. -/
theorem computeCPU_assigns_nothing :
    (∀ p ∈ List.replicate 5 [(1/2 : ℚ), 1/2], ∀ x ∈ p, 0 ≤ x ∧ x < 10) ∧
      (List.replicate 5 [(1/2 : ℚ), 1/2]).length = 5 ∧
      ∃ t, (construct (dVecBroadcast 2) 1 [10, 10] blank).andThen
          (computeCPU (List.replicate 5 [1/2, 1/2])) = .returned t ∧
        t.totalCells = 100 ∧ t.elementsPerCell.sum = 0 ∧ t.elementsPerCell.sum ≠ 5 := by
  refine ⟨?_, by simp, ?_⟩
  · intro p hp x hx
    rw [List.eq_of_mem_replicate hp] at hx
    simp at hx
    subst hx
    norm_num
  · rw [construct_eq, setGridSize_eq _ _ _ (by decide) (by decide) (by decide)]
    refine ⟨_, rfl, ?_, ?_, ?_⟩
    · decide
    · simp [gridInstalled]
    · simp [gridInstalled]

/-- `computeCPU` returns the state it was called in, whatever the points are. -/
theorem computeCPU_eq (points : List (List ℚ)) (s : hyperrectangularCellList) :
    computeCPU points s = .returned s := rfl

/-- The constructor on the box `[4, 4]` returns the state `grid44`. -/
theorem construct_grid44 : construct (dVecBroadcast 2) 1 [4, 4] blank = .returned grid44 := by
  decide!

/-- C3: on the grid with `[4, 4]` cells per side, `getCellNeighbors` of cell 0 with width 1
leaves the output vector empty, not holding 9 cells, and with width 0 the output does not
contain cell 0 either. -/
theorem getCellNeighbors_leaves_empty :
    grid44.gridCellsPerSide = [4, 4] ∧
      getCellNeighbors grid44 0 1 [7, 7] = [] ∧
      (getCellNeighbors grid44 0 1 [7, 7]).length ≠ 9 ∧
      (0 : Int) ∉ getCellNeighbors grid44 0 0 [] := by
  refine ⟨by decide, rfl, by decide, ?_⟩
  simp [getCellNeighbors]

/-- `getCellNeighbors` leaves the output vector empty for every grid, cell and width. -/
theorem getCellNeighbors_eq (s : hyperrectangularCellList) (cellIndex width : Int)
    (cellNeighbors : List Int) : getCellNeighbors s cellIndex width cellNeighbors = [] := rfl

/-- C7: in every state and for every input, `computeGPU` and `resetCellSizes` raise the
unsupported-operation signal, and the state in which the signal is raised is the state the
call started in. -/
theorem device_backends_unsupported (points : List (List ℚ)) (s : hyperrectangularCellList) :
    computeGPU points s = .raised (.unsupportedOperation "hyperrectangularCellList") s ∧
      resetCellSizes s = .raised (.unsupportedOperation "resetCellSizes on GPU") s ∧
      (computeGPU points s).state = some s ∧ (resetCellSizes s).state = some s ∧
      (∀ t, computeGPU points s ≠ .returned t) ∧ (∀ t, resetCellSizes s ≠ .returned t) := by
  refine ⟨rfl, rfl, rfl, rfl, ?_, ?_⟩ <;> intro t h <;> cases h

/-! ### `positionToCellIndex` -/

theorem clamp_eq_max_min (x : Int) (n : Nat) (hn : 1 ≤ n) :
    max 0 (min ((n : Int) - 1) x) = clamp x 0 ((n : Int) - 1) := by
  unfold clamp
  split_ifs <;> omega

theorem clamp_bounds (x : Int) (n : Nat) (hn : 1 ≤ n) :
    0 ≤ clamp x 0 ((n : Int) - 1) ∧ clamp x 0 ((n : Int) - 1) ≤ (n : Int) - 1 := by
  unfold clamp
  split_ifs <;> omega

theorem unsignedToInt_eq (n : Nat) (h : n ≤ INT_MAX) : unsignedToInt n = (n : Int) := by
  simp [unsignedToInt, h]

theorem scalarToInt_eq (z : Int) (h0 : -2147483648 ≤ z) (h1 : z ≤ 2147483647) :
    scalarToInt z = z := by
  simp [scalarToInt, h0, h1]

theorem mem_le_prod (ns : List Nat) (hn : ∀ n ∈ ns, 1 ≤ n) (m : Nat) (hm : m ∈ ns) :
    m ≤ ns.prod := by
  apply Nat.le_of_dvd
  · apply Nat.pos_of_ne_zero
    apply List.prod_ne_zero
    intro h0
    have := hn 0 h0
    omega
  · exact List.dvd_prod hm

theorem cellIndexVecLoop_eq (sdiv : ℚ → ℚ → ℚ) (ns : List Nat) (ps gs : List ℚ)
    (hn : ∀ n ∈ ns, 1 ≤ n ∧ n ≤ INT_MAX)
    (hp : ps.length = ns.length) (hg : gs.length = ns.length)
    (hq : ∀ d, d < ns.length →
      -2147483648 ≤ ⌊sdiv (ps.getD d 0) (gs.getD d 0)⌋ ∧
        ⌊sdiv (ps.getD d 0) (gs.getD d 0)⌋ ≤ 2147483647) :
    cellIndexVecLoop sdiv ns ps gs = (List.range ns.length).map
        (fun d => clamp ⌊sdiv (ps.getD d 0) (gs.getD d 0)⌋ 0 ((ns.getD d 0 : Int) - 1)) ∧
      List.Forall₂ (fun (n : Nat) (c : Int) => 0 ≤ c ∧ c ≤ (n : Int) - 1) ns
        (cellIndexVecLoop sdiv ns ps gs) := by
  induction ns generalizing ps gs with
  | nil => simp [cellIndexVecLoop]
  | cons n ns ih =>
    match ps, gs, hp, hg with
    | p :: ps, g :: gs, hp, hg =>
      have hn1 := hn n (List.mem_cons_self _ _)
      have hrest : ∀ m ∈ ns, 1 ≤ m ∧ m ≤ INT_MAX := fun m hm => hn m (List.mem_cons_of_mem _ hm)
      have hq0 := hq 0 (by simp)
      simp only [List.getD_cons_zero] at hq0
      have hqrest : ∀ d, d < ns.length →
          -2147483648 ≤ ⌊sdiv (ps.getD d 0) (gs.getD d 0)⌋ ∧
            ⌊sdiv (ps.getD d 0) (gs.getD d 0)⌋ ≤ 2147483647 := by
        intro d hd
        have := hq (d + 1) (by simpa using hd)
        simpa using this
      simp only [List.length_cons, Nat.add_right_cancel_iff] at hp hg
      obtain ⟨ih1, ih2⟩ := ih ps gs hrest hp hg hqrest
      have hstep : max 0 (min (unsignedToInt n - 1) (scalarToInt ⌊sdiv p g⌋)) =
          clamp ⌊sdiv p g⌋ 0 ((n : Int) - 1) := by
        rw [unsignedToInt_eq n hn1.2, scalarToInt_eq _ hq0.1 hq0.2, clamp_eq_max_min _ n hn1.1]
      constructor
      · simp only [cellIndexVecLoop, hstep, ih1, List.length_cons, List.range_succ_eq_map,
          List.map_cons, List.map_map]
        simp [Function.comp_def]
      · simp only [cellIndexVecLoop, hstep]
        exact List.Forall₂.cons (clamp_bounds _ n hn1.1) ih2

theorem IndexDD.index_range (ns : List Nat) (cs : List Int)
    (h : List.Forall₂ (fun (n : Nat) (c : Int) => 0 ≤ c ∧ c ≤ (n : Int) - 1) ns cs) :
    0 ≤ IndexDD.index ns cs ∧ IndexDD.index ns cs < ((ns.prod : Nat) : Int) := by
  induction h with
  | nil => simp [IndexDD.index]
  | @cons n c ns cs hc _ ih =>
    obtain ⟨h0, h1⟩ := hc
    obtain ⟨ih0, ih1⟩ := ih
    simp only [IndexDD.index, List.prod_cons, Nat.cast_mul]
    have hn : (0 : Int) ≤ (n : Int) := Int.ofNat_nonneg n
    constructor
    · positivity
    · nlinarith

/-- In range, the modelled indexer is undone by its inverse: the two form the bijection the
specification describes. -/
theorem IndexDD.inverseIndex_index (ns : List Nat) (cs : List Int)
    (h : List.Forall₂ (fun (n : Nat) (c : Int) => 0 ≤ c ∧ c ≤ (n : Int) - 1) ns cs) :
    IndexDD.inverseIndex ns (IndexDD.index ns cs) = cs := by
  induction h with
  | nil => simp [IndexDD.inverseIndex]
  | @cons n c ns cs hc _ ih =>
    obtain ⟨h0, h1⟩ := hc
    have hlt : c < (n : Int) := by omega
    have hn : (n : Int) ≠ 0 := by omega
    simp only [IndexDD.index, IndexDD.inverseIndex]
    rw [Int.add_mul_emod_self_left, Int.emod_eq_of_lt h0 hlt, Int.add_mul_ediv_left _ _ hn,
      Int.ediv_eq_zero_of_lt h0 hlt, Int.zero_add, ih]

/-- C4, as stated, fails: on the grid with `[4, 4]` cells of size 1 the position
`(2147483648, 1)` lies beyond the box; its quotient by the cell size on axis 0 is not an
`int`, the conversion gives the smallest `int`, the coordinate becomes 0 and the returned id
is 4, where the clamped coordinate vector is `[3, 1]` with indexer image 7. -/
theorem positionToCellIndex_far_position :
    (∀ n ∈ grid44.gridCellsPerSide, 1 ≤ n) ∧ (∀ g ∈ grid44.gridCellSizes, 0 < g) ∧
      cellIndexVecLoop exactDiv grid44.gridCellsPerSide [2147483648, 1] grid44.gridCellSizes
        = [0, 1] ∧
      (positionToCellIndex exactDiv grid44 [2147483648, 1]).1 = 4 ∧
      specCoords exactDiv grid44 [2147483648, 1] = [3, 1] ∧
      IndexDD.index grid44.cellIndexer.sizes (specCoords exactDiv grid44 [2147483648, 1]) = 7 := by
  decide!

/-- C4, amended: on a grid with at least one cell on every axis, positive cell sizes and
`totalCells` at most `INT_MAX`, and for every position (negative or beyond the box included)
whose quotient `floor(pos[d] / cellSize[d])` is an `int` on every axis,
`positionToCellIndex(pos)` is the indexer image of the coordinate vector
`clamp(floor(pos[d] / cellSize[d]), 0, cellsPerSide[d] - 1)`; every such coordinate lies in
`[0, cellsPerSide[d] - 1]`, the returned id lies in `[0, totalCells)`, and the object state
after the call is the state before it.  The quotient is the one the scalar format gives. -/
theorem positionToCellIndex_clamped (sdiv : ℚ → ℚ → ℚ) (s : hyperrectangularCellList)
    (pos : List ℚ)
    (hcells : ∀ n ∈ s.gridCellsPerSide, 1 ≤ n)
    (_hsizes : ∀ g ∈ s.gridCellSizes, 0 < g)
    (hpos : pos.length = s.gridCellsPerSide.length)
    (hlen : s.gridCellSizes.length = s.gridCellsPerSide.length)
    (hidx : s.cellIndexer = ⟨s.gridCellsPerSide⟩)
    (htot : s.totalCells = s.gridCellsPerSide.prod)
    (hfit : s.totalCells ≤ INT_MAX)
    (hquot : ∀ d, d < s.gridCellsPerSide.length →
      -2147483648 ≤ ⌊sdiv (pos.getD d 0) (s.gridCellSizes.getD d 0)⌋ ∧
        ⌊sdiv (pos.getD d 0) (s.gridCellSizes.getD d 0)⌋ ≤ 2147483647) :
    (positionToCellIndex sdiv s pos).1
        = IndexDD.index s.cellIndexer.sizes (specCoords sdiv s pos) ∧
      (∀ d, d < s.gridCellsPerSide.length →
        0 ≤ specCoord sdiv s pos d ∧
          specCoord sdiv s pos d ≤ (s.gridCellsPerSide.getD d 0 : Int) - 1) ∧
      0 ≤ (positionToCellIndex sdiv s pos).1 ∧
      (positionToCellIndex sdiv s pos).1 < (s.totalCells : Int) ∧
      (positionToCellIndex sdiv s pos).2 = s := by
  have hn : ∀ n ∈ s.gridCellsPerSide, 1 ≤ n ∧ n ≤ INT_MAX := by
    intro n hmem
    refine ⟨hcells n hmem, ?_⟩
    have := mem_le_prod _ hcells n hmem
    omega
  obtain ⟨heq, hbd⟩ := cellIndexVecLoop_eq sdiv _ pos _ hn hpos hlen hquot
  have hb := IndexDD.index_range _ _ hbd
  refine ⟨?_, ?_, ?_, ?_, rfl⟩
  · simp only [positionToCellIndex, specCoords]
    rw [heq]
    rfl
  · intro d hd
    apply clamp_bounds
    apply hcells
    rw [List.getD_eq_getElem _ _ hd]
    exact List.getElem_mem hd
  · simp only [positionToCellIndex, hidx]
    exact hb.1
  · simp only [positionToCellIndex, hidx, htot]
    exact hb.2

theorem positionToCellIndex_clamped_witness :
    (positionToCellIndex exactDiv grid44 [-7/2, 100]).1
        = IndexDD.index grid44.cellIndexer.sizes (specCoords exactDiv grid44 [-7/2, 100]) ∧
      (∀ d, d < grid44.gridCellsPerSide.length →
        0 ≤ specCoord exactDiv grid44 [-7/2, 100] d ∧
          specCoord exactDiv grid44 [-7/2, 100] d ≤ (grid44.gridCellsPerSide.getD d 0 : Int) - 1) ∧
      0 ≤ (positionToCellIndex exactDiv grid44 [-7/2, 100]).1 ∧
      (positionToCellIndex exactDiv grid44 [-7/2, 100]).1 < (grid44.totalCells : Int) ∧
      (positionToCellIndex exactDiv grid44 [-7/2, 100]).2 = grid44 :=
  positionToCellIndex_clamped exactDiv grid44 [-7/2, 100] (by decide) (by decide!) (by decide)
    (by decide) (by decide) (by decide) (by decide) (by decide!)

/-! ### Evaluations of the embedding -/

/-- The specification's grid-sizing example: box length 10 on two axes, target cell size 1. -/
theorem construct_ten_by_ten :
    ∃ t, construct (dVecBroadcast 2) 1 [10, 10] blank = .returned t ∧
      t.gridCellsPerSide = [10, 10] ∧ t.gridCellSizes = [1, 1] ∧ t.totalCells = 100 ∧
      t.Nmax = 200 :=
  ⟨_, (construct_eq _ _ _ _).trans (setGridSize_eq _ _ _ (by decide) (by decide) (by decide)),
    by decide, by decide!, by decide, by decide⟩

/-- The conversions at the edge of the 32-bit range. -/
theorem conversion_samples :
    gridCellsOf 4294967296 = 0 ∧ gridCellsOf (8589934591/2) = 0 ∧
      gridCellsOf (-3) = 4294967294 ∧ gridCellsOf 182 = 182 ∧
      (positionToCellIndex exactDiv grid44 [3000000000, 3000000000]).1 = 0 ∧
      (positionToCellIndex exactDiv grid44 [7/2, 1/2]).1 = 3 ∧
      (positionToCellIndex exactDiv grid44 [-7/2, 100]).1 = 12 ∧
      IndexDD.inverseIndex [4, 4] 13 = [1, 3] := by
  decide!

end OpenQmin
